import Mathlib

/-!
Verification of the shallowclone repository: a shallow embedding of the
derive-macro code generator (shallowclone-derive) and of the runtime
trait implementations (shallowclone), with theorems settling the claims
about attribute resolution, target-type synthesis, body generation,
generic-bound assembly, and the runtime Cow / CoCow semantics.
-/

namespace Shallowclone

/-! ## Data model of the macro input (mirrors the syn types the code consumes) -/

/-- The two transformation kinds, from shallowclone-derive/src/lib.rs `enum DeriveType`. -/
inductive DeriveType where
| shallowClone
| makeOwned
deriving DecidableEq

/-- The shape of an attribute's meta item, as far as `is_generic_skipped` inspects it:
`list (some s)` models `Meta::List` whose tokens parse as the single identifier `s`,
`list none` models `Meta::List` whose tokens do not parse as a single identifier,
`path` and `nameValue` model the other `syn::Meta` forms. -/
inductive Meta where
| path
| list (parsedIdent : Option String)
| nameValue
deriving DecidableEq

/-- An attribute attached to a generic parameter: its path (a single identifier,
as tested by `attr.path().is_ident(root_tag)`) and its meta form. -/
structure Attribute where
  path : String
  meta : Meta
deriving DecidableEq

/-- A lifetime generic parameter (syn `LifetimeParam`): attributes, the lifetime
name, and its lifetime bounds (kept as opaque token strings). -/
structure LifetimeParam where
  attrs : List Attribute
  lifetime : String
  bounds : List String
deriving DecidableEq

/-- A type generic parameter (syn `TypeParam`): attributes, the identifier, and
its declared capability bounds (kept as opaque token strings). -/
structure TypeParam where
  attrs : List Attribute
  ident : String
  bounds : List String
deriving DecidableEq

/-- A const generic parameter (syn `ConstParam`): identifier and value type. -/
structure ConstParam where
  ident : String
  ty : String
deriving DecidableEq

/-- A generic parameter (syn `GenericParam`). -/
inductive GenericParam where
| lifetime (p : LifetimeParam)
| type (p : TypeParam)
| const (p : ConstParam)
deriving DecidableEq

/-- A field of a struct or enum variant (syn `Field`): optional identifier
(present for named fields, absent for positional ones) and its type tokens. -/
structure Field where
  ident : Option String
  ty : String
deriving DecidableEq

/-- Field lists (syn `Fields`): named, unnamed (positional) or unit. -/
inductive Fields where
| named (l : List Field)
| unnamed (l : List Field)
| unit

/-- An enum variant (syn `Variant`): name and fields. -/
structure Variant where
  ident : String
  fields : Fields

/-- The declaration body (syn `Data`): struct, enum or union. -/
inductive Data where
| struct (fields : Fields)
| enum (variants : List Variant)
| union

/-- The parsed derive input (syn `DeriveInput`): name, generic parameters in
declaration order, and the body. -/
structure DeriveInput where
  ident : String
  generics : List GenericParam
  data : Data

/-- List of the fields of a `Fields` value, as iterated by `Fields::iter()`. -/
def fieldsList : Fields → List Field
| .named l => l
| .unnamed l => l
| .unit => []

/-- The three shapes a `Fields` value can have. -/
inductive FieldsShape where
| named
| unnamed
| unit
deriving DecidableEq

/-- Shape of a `Fields` value. -/
def fieldsShape : Fields → FieldsShape
| .named _ => .named
| .unnamed _ => .unnamed
| .unit => .unit

/-! ## attributes.rs: the attribute resolver -/

/-- The kind-specific root tag matched by `is_generic_skipped`. -/
def rootTag : DeriveType → String
| .shallowClone => "shallowclone"
| .makeOwned => "makeowned"

/-- The attribute-scanning loop of `is_generic_skipped` (attributes.rs lines
12-35): for each attribute whose path is the root tag, a `Meta::List` whose
single-identifier argument is `skip` returns `true` immediately; any other
matching attribute emits one "Unknown attribute" diagnostic and scanning
continues; the result is the exclusion flag together with the emitted
diagnostics, in order. -/
def is_generic_skipped_loop (root_tag : String) : List Attribute → Bool × List String
| [] => (false, [])
| attr :: rest =>
  if attr.path = root_tag then
    match attr.meta with
    | .list (some parsed) =>
      if parsed = "skip" then (true, [])
      else
        let r := is_generic_skipped_loop root_tag rest
        (r.1, "Unknown attribute" :: r.2)
    | _ =>
      let r := is_generic_skipped_loop root_tag rest
      (r.1, "Unknown attribute" :: r.2)
  else
    is_generic_skipped_loop root_tag rest

/-- `is_generic_skipped` (attributes.rs lines 5-36). For a lifetime or type
parameter it scans the parameter's attributes; for a const parameter it
unconditionally aborts macro expansion (`abort!` with
"const generics cannot be skipped"), modelled as `Except.error`. The `Bool`
is the exclusion flag; the `List String` are the emitted non-fatal
diagnostics. -/
def is_generic_skipped (derive_type : DeriveType) (input : GenericParam) :
    Except String (Bool × List String) :=
  match input with
  | .lifetime lifetime_param => .ok (is_generic_skipped_loop (rootTag derive_type) lifetime_param.attrs)
  | .type type_param => .ok (is_generic_skipped_loop (rootTag derive_type) type_param.attrs)
  | .const _ => .error "const generics cannot be skipped"

/-- Pure exclusion flag of a parameter (the `Bool` component of the resolver
for lifetime and type parameters; `false` for const parameters, which in the
real code abort before any flag is produced). -/
def pure_skip (dt : DeriveType) : GenericParam → Bool
| .lifetime lifetime_param => (is_generic_skipped_loop (rootTag dt) lifetime_param.attrs).1
| .type type_param => (is_generic_skipped_loop (rootTag dt) type_param.attrs).1
| .const _ => false

/-- Diagnostics emitted by the resolver for a parameter (empty for const
parameters, which abort instead). -/
def param_diags (dt : DeriveType) : GenericParam → List String
| .lifetime lifetime_param => (is_generic_skipped_loop (rootTag dt) lifetime_param.attrs).2
| .type type_param => (is_generic_skipped_loop (rootTag dt) type_param.attrs).2
| .const _ => []

/-! ## target_type.rs: target type synthesis -/

/-- One generic argument of the synthesized target type, at the token level:
`plain n` is the bare name `n` (parameter passed through), `shallowTarget T`
is the tokens of the projection of `T` to its ShallowClone target under the
distinguished shallowclone lifetime, `ownedProj T` is the projection of `T`
to its MakeOwned owned type, `shallowLifetime` is the distinguished
shallowclone lifetime, `staticLifetime` is the static lifetime, and
`constDecl n ty` is the full const-parameter declaration tokens
(`const n : ty`), which is what interpolating a whole `ConstParam` emits. -/
inductive TypeArg where
| plain (name : String)
| shallowTarget (name : String)
| ownedProj (name : String)
| shallowLifetime
| staticLifetime
| constDecl (name : String) (ty : String)
deriving DecidableEq

/-- The synthesized target type: `name< args >`. -/
structure TargetType where
  name : String
  args : List TypeArg
deriving DecidableEq

/-- One generic argument of `get_target_type` (target_type.rs lines 10-34):
const parameters are returned early as their full declaration tokens; for the
others, a skipped parameter becomes its bare name, and a non-skipped one is
rewritten according to the parameter kind and the derive type. -/
def get_target_type_param (dt : DeriveType) (g : GenericParam) : TypeArg :=
  match g with
  | .const const_param => .constDecl const_param.ident const_param.ty
  | .lifetime lifetime_param =>
    if (is_generic_skipped_loop (rootTag dt) lifetime_param.attrs).1 then
      .plain lifetime_param.lifetime
    else
      match dt with
      | .shallowClone => .shallowLifetime
      | .makeOwned => .staticLifetime
  | .type type_param =>
    if (is_generic_skipped_loop (rootTag dt) type_param.attrs).1 then
      .plain type_param.ident
    else
      match dt with
      | .shallowClone => .shallowTarget type_param.ident
      | .makeOwned => .ownedProj type_param.ident

/-- `get_target_type` (target_type.rs lines 9-38): `Name< G1, ..., Gn >` with
each generic argument rewritten by `get_target_type_param`. -/
def get_target_type (input : DeriveInput) (dt : DeriveType) : TargetType :=
  ⟨input.ident, input.generics.map (get_target_type_param dt)⟩

/-! ## gen_impl.rs: body generation -/

/-- `tuple_field` (gen_impl.rs lines 6-8): the fresh binding name for the
i-th positional field. -/
def tuple_field (i : Nat) : String := "f" ++ toString i

/-- The access expression built for a field (gen_impl.rs lines 73-90):
`refNamed f` is `&self.f`, `valNamed f` is `self.f`, `refIndex i` is
`&self.i`, `valIndex i` is `self.i`, and `binding x` is the bare binding `x`
introduced by an enum arm pattern. -/
inductive AccessExpr where
| refNamed (field : String)
| valNamed (field : String)
| refIndex (i : Nat)
| valIndex (i : Nat)
| binding (name : String)
deriving DecidableEq

/-- The transformed value for one field (gen_impl.rs lines 92-95):
`ShallowClone::shallow_clone(access)` or `MakeOwned::make_owned(access)`. -/
inductive GenValue where
| shallowCloneCall (arg : AccessExpr)
| makeOwnedCall (arg : AccessExpr)
deriving DecidableEq

/-- One field of the reconstructed container (gen_impl.rs lines 97-100):
`name := some f` renders `f: value`, `name := none` renders `value`
positionally. -/
structure FieldInit where
  name : Option String
  value : GenValue
deriving DecidableEq

/-- The field access chosen by `gen_fields` (gen_impl.rs lines 73-90), matching
on derive type, whether the subject is an enum variant, and whether the field
is named, in the source's arm order. -/
def gen_field_access (dt : DeriveType) (is_enum : Bool) (i : Nat) (field : Field) : AccessExpr :=
  match dt, is_enum, field.ident with
  | _, true, some id => .binding id
  | .shallowClone, false, some id => .refNamed id
  | .makeOwned, false, some id => .valNamed id
  | .shallowClone, false, none => .refIndex i
  | .makeOwned, false, none => .valIndex i
  | _, true, none => .binding (tuple_field i)

/-- The enumerated field loop of `gen_fields` (gen_impl.rs lines 71-106),
with `i` the running index of `.iter().enumerate()`. -/
def gen_fields_from (dt : DeriveType) (is_enum : Bool) : Nat → List Field → List FieldInit
| _, [] => []
| i, field :: rest =>
  { name := field.ident,
    value :=
      match dt with
      | .shallowClone => .shallowCloneCall (gen_field_access dt is_enum i field)
      | .makeOwned => .makeOwnedCall (gen_field_access dt is_enum i field) }
  :: gen_fields_from dt is_enum (i + 1) rest

/-- `gen_fields` (gen_impl.rs lines 71-106). -/
def gen_fields (dt : DeriveType) (fields : List Field) (is_enum : Bool) : List FieldInit :=
  gen_fields_from dt is_enum 0 fields

/-- The binding names `f0, f1, ...` generated for a positional variant's
pattern (gen_impl.rs lines 45-50), with running index. -/
def tuple_fields_from : Nat → List Field → List String
| _, [] => []
| i, _ :: rest => tuple_field i :: tuple_fields_from (i + 1) rest

/-- The pattern bindings of an enum arm (gen_impl.rs lines 34-57): named
variants bind every field by its name, positional variants bind `f0, f1, ...`,
unit variants bind nothing. -/
def arm_pat_bindings : Fields → List (Option String)
| .named l => l.map (fun field => field.ident)
| .unnamed l => (tuple_fields_from 0 l).map some
| .unit => []

/-- One generated match arm (gen_impl.rs lines 28-58):
`Self::variant pat => Name::variant body`. -/
structure Arm where
  variant : String
  shape : FieldsShape
  pat : List (Option String)
  body : List FieldInit
deriving DecidableEq

/-- The generated implementation body (gen_impl.rs lines 10-68): a struct
literal reconstruction, or a `match self` with one arm per variant. -/
inductive GenBody where
| structBody (name : String) (shape : FieldsShape) (inits : List FieldInit)
| matchBody (arms : List Arm)
deriving DecidableEq

/-- `gen_impl` (gen_impl.rs lines 10-69): struct declarations reconstruct the
container from `gen_fields`; enum declarations produce a `match self` with one
arm per declared variant, in declaration order, each destructuring the
variant's fields and reconstructing the target variant; unions hit
`unimplemented!`, modelled as an error. -/
def gen_impl (dt : DeriveType) (input : DeriveInput) : Except String GenBody :=
  match input.data with
  | .struct fields =>
    .ok (.structBody input.ident (fieldsShape fields) (gen_fields dt (fieldsList fields) false))
  | .enum variants =>
    .ok (.matchBody (variants.map (fun variant =>
      ⟨variant.ident, fieldsShape variant.fields, arm_pat_bindings variant.fields,
        gen_fields dt (fieldsList variant.fields) true⟩)))
  | .union => .error "unions are not supported"

/-! ## lib.rs: the derive entry point and bound assembly -/

/-- One re-declared generic parameter of the generated impl (lib.rs lines
58, 68, 94): a lifetime with its original bounds, a type with its original
bounds, or a const parameter. -/
inductive ImplGeneric where
| lifetimeDecl (name : String) (bounds : List String)
| typeDecl (name : String) (bounds : List String)
| constDecl (name : String) (ty : String)
deriving DecidableEq

/-- One generic argument of the universally quantified Clone bound (lib.rs
lines 112-122): every lifetime parameter is replaced by the quantified
substitute lifetime, type and const parameters keep their identifier. -/
inductive CloneArg where
| anyLifetime
| ident (name : String)
deriving DecidableEq

/-- One extra bound pushed by `derive` (lib.rs lines 61, 72, 77, 84, 85, 123):
a lifetime outliving the shallowclone lifetime; a type parameter required to be
static; a type parameter required to implement ShallowClone under the
shallowclone lifetime; a type parameter required to implement MakeOwned; the
parameter's MakeOwned::Owned projection required to satisfy the original bound
list; or the whole type, with every lifetime parameter universally replaced,
required to implement Clone. -/
inductive Bound where
| lifetimeOutlivesShallow (lifetime : String)
| typeStatic (name : String)
| typeShallowClone (name : String)
| typeMakeOwned (name : String)
| ownedSatisfiesBounds (name : String) (origBounds : List String)
| forAllLifetimesClone (name : String) (args : List CloneArg)
deriving DecidableEq

/-- The generic re-declaration and per-parameter extra bounds contributed by
one parameter of the derive loop (lib.rs lines 53-96), given its resolved
exclusion flag. -/
def derive_param_entry (dt : DeriveType) (skip : Bool) : GenericParam → ImplGeneric × List Bound
| .lifetime lifetime_param =>
  (.lifetimeDecl lifetime_param.lifetime lifetime_param.bounds,
    if !skip && dt = .shallowClone then
      [.lifetimeOutlivesShallow lifetime_param.lifetime]
    else [])
| .type type_param =>
  (.typeDecl type_param.ident type_param.bounds,
    if skip then
      if dt = .makeOwned then [.typeStatic type_param.ident] else []
    else
      match dt with
      | .shallowClone => [.typeShallowClone type_param.ident]
      | .makeOwned =>
        [.typeMakeOwned type_param.ident,
         .ownedSatisfiesBounds type_param.ident type_param.bounds])
| .const const_param => (.constDecl const_param.ident const_param.ty, [])

/-- The derive loop over all generic parameters (lib.rs lines 50-97): each
parameter is first passed to the attribute resolver (which aborts on const
parameters), then contributes its impl-generics entry and extra bounds;
diagnostics accumulate across parameters. -/
def derive_params (dt : DeriveType) : List GenericParam →
    Except String (List ImplGeneric × List Bound × List String)
| [] => .ok ([], [], [])
| g :: rest =>
  match is_generic_skipped dt g with
  | .error e => .error e
  | .ok (skip, ds) =>
    match derive_params dt rest with
    | .error e => .error e
    | .ok (igs, bss, dss) =>
      let (ig, bs) := derive_param_entry dt skip g
      .ok (ig :: igs, bs ++ bss, ds ++ dss)

/-- The generic argument used for a parameter inside the universally
quantified Clone bound (lib.rs lines 112-122). -/
def clone_bound_arg : GenericParam → CloneArg
| .lifetime _ => .anyLifetime
| .type type_param => .ident type_param.ident
| .const const_param => .ident const_param.ident

/-- The impl-generics entry of one parameter under its resolver-computed
exclusion flag. -/
def param_impl_entry (dt : DeriveType) (g : GenericParam) : ImplGeneric :=
  (derive_param_entry dt (pure_skip dt g) g).1

/-- The per-parameter extra bounds of one parameter under its
resolver-computed exclusion flag. -/
def param_bounds (dt : DeriveType) (g : GenericParam) : List Bound :=
  (derive_param_entry dt (pure_skip dt g) g).2

/-- The output of one derive invocation: the generated impl's generic
parameter list, its extra where-clause bounds in emission order, the target
type, the body, and the accumulated non-fatal diagnostics. -/
structure DeriveOutput where
  impl_generics : List ImplGeneric
  extra_bounds : List Bound
  target_type : TargetType
  body : GenBody
  diags : List String
deriving DecidableEq

/-- `derive` (lib.rs lines 31-166): synthesizes the target type, walks the
generic parameters accumulating impl generics and extra bounds, appends (for
MakeOwned only, after all per-parameter bounds) the single universally
quantified Clone bound over the whole type with every lifetime parameter
substituted, and generates the body. -/
def derive (input : DeriveInput) (dt : DeriveType) : Except String DeriveOutput :=
  let target_type := get_target_type input dt
  match derive_params dt input.generics with
  | .error e => .error e
  | .ok (impl_generics, per_bounds, diags) =>
    let extra_bounds :=
      match dt with
      | .shallowClone => per_bounds
      | .makeOwned =>
        per_bounds ++
          [Bound.forAllLifetimesClone input.ident (input.generics.map clone_bound_arg)]
    match gen_impl dt input with
    | .error e => .error e
    | .ok body => .ok ⟨impl_generics, extra_bounds, target_type, body, diags⟩

/-! ## Runtime model: std Cow, CoCow, CoCowSlice and the Pair scenario

References are modelled by the value they refer to: `borrowed v` holds the
referent `v` itself, so "references the original payload" becomes "holds the
original payload value". -/

/-- The standard `Cow`: an owned payload or a borrowed reference to one. -/
inductive Cow (α : Type) where
| owned (v : α)
| borrowed (v : α)
deriving DecidableEq

/-- Dereferencing a `Cow` (its `Deref`): the payload either variant exposes. -/
def Cow.deref {α : Type} : Cow α → α
| .owned o => o
| .borrowed b => b

/-- Whether a `Cow` is the `Owned` variant. -/
def Cow.isOwned {α : Type} : Cow α → Bool
| .owned _ => true
| .borrowed _ => false

/-- Whether a `Cow` is the `Borrowed` variant. -/
def Cow.isBorrowed {α : Type} : Cow α → Bool
| .owned _ => false
| .borrowed _ => true

/-- `ShallowClone for Cow` (shallowclone.rs lines 18-27):
`Cow::Borrowed(&**self)`, a borrow of the dereferenced underlying data. -/
def Cow.shallow_clone {α : Type} (c : Cow α) : Cow α :=
  .borrowed c.deref

/-- `MakeOwned for Cow<'a, str>` (makeowned.rs lines 20-29): wrap as `Owned`
the string itself if owned, or the referent's text if borrowed. -/
def Cow.make_owned (c : Cow String) : Cow String :=
  .owned (match c with
    | .borrowed bor => bor
    | .owned o => o)

/-- Covariant copy-on-write `CoCow` (cows.rs lines 33-37). -/
inductive CoCow (α : Type) where
| owned (v : α)
| borrowed (v : α)
deriving DecidableEq

/-- `ShallowClone for CoCow` (cows.rs lines 123-132): an owned payload is
re-exposed as `Borrowed` of that payload; a borrowed payload stays `Borrowed`
of the same referent. -/
def CoCow.shallow_clone {α : Type} : CoCow α → CoCow α
| .owned o => .borrowed o
| .borrowed bor => .borrowed bor

/-- Covariant copy-on-write slice `CoCowSlice` (cows.rs lines 51-55): its
owned form is a growable sequence, its borrowed form a sequence view. -/
inductive CoCowSlice (α : Type) where
| owned (v : List α)
| borrowed (v : List α)
deriving DecidableEq

/-- `ShallowClone for CoCowSlice` (cows.rs lines 133-142). -/
def CoCowSlice.shallow_clone {α : Type} : CoCowSlice α → CoCowSlice α
| .owned o => .borrowed o
| .borrowed bor => .borrowed bor

/-- The scenario struct `Pair(u16, u32, Text)`: two scalar fields (modelled as
their numeric values) and a text field modelled as `Cow String`, the text
container whose shallow clone is a borrowed text view. -/
structure Pair where
  f0 : Nat
  f1 : Nat
  f2 : Cow String
deriving DecidableEq

/-- `ShallowClone` for `u16`/`u32` (shallowclone.rs lines 48-63,
`impl_shallowclone_by_clone`): `self.clone()`, a by-value copy of the scalar. -/
def scalar_shallow_clone (x : Nat) : Nat := x

/-- `MakeOwned` for `u16`/`u32` (makeowned.rs lines 65-80,
`impl_makeowned_basic`): the identity. -/
def scalar_make_owned (x : Nat) : Nat := x

/-- The derived `ShallowClone` body for `Pair` (gen_impl.rs `gen_fields`, by
reference over each positional field):
`Pair(shallow_clone(&self.0), shallow_clone(&self.1), shallow_clone(&self.2))`. -/
def Pair.shallow_clone (p : Pair) : Pair :=
  ⟨scalar_shallow_clone p.f0, scalar_shallow_clone p.f1, Cow.shallow_clone p.f2⟩

/-- The derived `MakeOwned` body for `Pair` (gen_impl.rs `gen_fields`, by
value over each positional field):
`Pair(make_owned(self.0), make_owned(self.1), make_owned(self.2))`. -/
def Pair.make_owned (p : Pair) : Pair :=
  ⟨scalar_make_owned p.f0, scalar_make_owned p.f1, Cow.make_owned p.f2⟩

/-- Content equality of `Cow` values, as Rust's `PartialEq for Cow` compares
them: equality of the dereferenced data. -/
def Cow.content_eq {α : Type} (a b : Cow α) : Prop := a.deref = b.deref

/-- Content equality of `Pair` values: scalar fields equal, text fields equal
by content. -/
def Pair.content_eq (p q : Pair) : Prop :=
  p.f0 = q.f0 ∧ p.f1 = q.f1 ∧ Cow.content_eq p.f2 q.f2

/-- The `DeriveInput` of the scenario struct `Pair(u16, u32, Text)`: no
generic parameters, three positional fields. -/
def pairDecl : DeriveInput :=
  ⟨"Pair", [], .struct (.unnamed [⟨none, "u16"⟩, ⟨none, "u32"⟩, ⟨none, "Text"⟩])⟩

/-! ## Definitions written from the spec's words, for comparison with the code -/

/-- Modelled from the spec: a marker is the recognized skip form when its root
tag matches the kind's tag and its single-identifier argument is the literal
`skip`. -/
def isSkipMarker (tag : String) (a : Attribute) : Bool :=
  if a.path = tag then
    match a.meta with
    | .list (some id) => if id = "skip" then true else false
    | _ => false
  else false

/-- Whether an attribute's root tag matches the given tag. -/
def matchesTag (tag : String) (a : Attribute) : Bool :=
  if a.path = tag then true else false

/-- Modelled from the spec (claim C5): the generic argument of the synthesized
target type — excluded parameters pass through unchanged; a non-excluded
lifetime becomes the distinguished shallowclone lifetime under ShallowView and
the static lifetime under OwnershipDetach; a non-excluded type parameter
becomes its ShallowClone target projection under ShallowView and its MakeOwned
owned projection under OwnershipDetach. Const parameters are outside the
claim's scope and are delegated to the code's own behavior. -/
def spec_target_arg (dt : DeriveType) (g : GenericParam) : TypeArg :=
  match g with
  | .lifetime lifetime_param =>
    if pure_skip dt (.lifetime lifetime_param) then .plain lifetime_param.lifetime
    else
      match dt with
      | .shallowClone => .shallowLifetime
      | .makeOwned => .staticLifetime
  | .type type_param =>
    if pure_skip dt (.type type_param) then .plain type_param.ident
    else
      match dt with
      | .shallowClone => .shallowTarget type_param.ident
      | .makeOwned => .ownedProj type_param.ident
  | .const const_param => get_target_type_param dt (.const const_param)

/-- Modelled from the spec (claim C3): the constraints added for a type
parameter under OwnershipDetach — a `'static` requirement if the parameter is
excluded; otherwise a MakeOwned requirement together with the requirement that
its owned projection satisfy the parameter's original declared bounds. -/
def spec_mo_type_bounds (excluded : Bool) (type_param : TypeParam) : List Bound :=
  if excluded then
    [.typeStatic type_param.ident]
  else
    [.typeMakeOwned type_param.ident,
     .ownedSatisfiesBounds type_param.ident type_param.bounds]

/-- The recursive transformation call wrapping a field access, per kind. -/
def spec_call (dt : DeriveType) (a : AccessExpr) : GenValue :=
  match dt with
  | .shallowClone => .shallowCloneCall a
  | .makeOwned => .makeOwnedCall a

/-- Modelled from the spec (claim C7): the access to an original struct field —
by reference for ShallowView, by value for OwnershipDetach, by name for named
fields and by position for positional ones. -/
def spec_access (dt : DeriveType) (i : Nat) (field : Field) : AccessExpr :=
  match field.ident with
  | some id =>
    match dt with
    | .shallowClone => .refNamed id
    | .makeOwned => .valNamed id
  | none =>
    match dt with
    | .shallowClone => .refIndex i
    | .makeOwned => .valIndex i

/-- Modelled from the spec (claim C7): the struct body's field assignments —
one per field, preserving the field's name, each applying the transformation
recursively to the access of the corresponding original field. -/
def spec_struct_inits_from (dt : DeriveType) : Nat → List Field → List FieldInit
| _, [] => []
| i, field :: rest =>
  { name := field.ident, value := spec_call dt (spec_access dt i field) }
    :: spec_struct_inits_from dt (i + 1) rest

/-- The binding a field of an enum variant is destructured into: its name for
a named field, the positional fresh name otherwise. -/
def spec_enum_binding (i : Nat) (field : Field) : String :=
  match field.ident with
  | some id => id
  | none => tuple_field i

/-- Modelled from the spec (claim C6): the reconstruction expressions of one
enum arm — one per field, preserving names and positions, each applying the
transformation recursively to the field's pattern binding. -/
def spec_enum_inits_from (dt : DeriveType) : Nat → List Field → List FieldInit
| _, [] => []
| i, field :: rest =>
  { name := field.ident, value := spec_call dt (.binding (spec_enum_binding i field)) }
    :: spec_enum_inits_from dt (i + 1) rest

/-- Modelled from the spec (claim C6): the reconstruction arm of one variant —
it destructures every field of the variant into a binding and reconstructs the
corresponding target-type variant with the same field names and positions. -/
def spec_enum_arm (dt : DeriveType) (variant : Variant) : Arm :=
  { variant := variant.ident
    shape := fieldsShape variant.fields
    pat := arm_pat_bindings variant.fields
    body := spec_enum_inits_from dt 0 (fieldsList variant.fields) }

/-- Modelled from the spec (claim C8): the generic arguments of the
universally quantified Clone constraint — the substitute lifetime replaces
every lifetime parameter, all other parameters keep their name. -/
def spec_clone_args (gens : List GenericParam) : List CloneArg :=
  gens.map (fun g =>
    match g with
    | .lifetime _ => .anyLifetime
    | .type type_param => .ident type_param.ident
    | .const const_param => .ident const_param.ident)

/-- Whether a generic parameter is a const parameter. -/
def GenericParam.isConst : GenericParam → Bool
| .const _ => true
| _ => false

/-- Whether a declaration body is a union. -/
def Data.isUnion : Data → Bool
| .union => true
| _ => false

/-- Whether a bound is the universally quantified Clone constraint. -/
def Bound.isCloneBound : Bound → Bool
| .forAllLifetimesClone _ _ => true
| _ => false

/-! ## Concrete inputs used by witnesses and counterexamples -/

/-- A declaration with a const generic parameter:
`struct Foo<const N: usize>(u32);`. -/
def constFoo : DeriveInput :=
  ⟨"Foo", [.const ⟨"N", "usize"⟩], .struct (.unnamed [⟨none, "u32"⟩])⟩

/-- A type parameter whose attributes are a recognized skip marker followed by
a malformed marker with argument `foo`. -/
def skipThenMalformed : TypeParam :=
  ⟨[⟨"shallowclone", .list (some "skip")⟩, ⟨"shallowclone", .list (some "foo")⟩], "T", []⟩

/-- A type parameter carrying one malformed matching marker (argument `foo`)
and one unrelated attribute. -/
def malformedTypeParam : TypeParam :=
  ⟨[⟨"makeowned", .list (some "foo")⟩, ⟨"other", .path⟩], "T", []⟩

/-- A lifetime parameter carrying one matching marker with no parseable
single-identifier argument. -/
def malformedLifetimeParam : LifetimeParam :=
  ⟨[⟨"makeowned", .path⟩], "a", []⟩

/-- The generic-parameter list holding both malformed-marker parameters. -/
def malformedGens : List GenericParam :=
  [.type malformedTypeParam, .lifetime malformedLifetimeParam]

/-- A declaration with one lifetime and one type parameter and two variants,
mirroring the repository's `Enum<'a, T>` test type. -/
def enumDecl : DeriveInput :=
  ⟨"Enum", [.lifetime ⟨[], "a", []⟩, .type ⟨[], "T", []⟩],
    .enum
      [⟨"UnitVariant", .unit⟩,
       ⟨"TupleVariant", .unnamed [⟨none, "u16"⟩, ⟨none, "u32"⟩, ⟨none, "String"⟩]⟩]⟩

/-! ## Supporting lemmas -/

/-- Each recursive step of the resolver on a parameter whose matching markers
are all malformed contributes one diagnostic per matching marker and never
sets the exclusion flag. -/
theorem no_skip_loop (tag : String) (attrs : List Attribute)
    (h : ∀ a ∈ attrs, isSkipMarker tag a = false) :
    is_generic_skipped_loop tag attrs =
      (false, List.replicate (attrs.filter (matchesTag tag)).length "Unknown attribute") := by
  induction attrs with
  | nil => rfl
  | cons a rest ih =>
    have ha := h a (List.mem_cons_self a rest)
    have ihr := ih (fun x hx => h x (List.mem_cons_of_mem a hx))
    by_cases hp : a.path = tag
    · have hm : matchesTag tag a = true := by simp [matchesTag, hp]
      rw [is_generic_skipped_loop, if_pos hp]
      cases hmeta : a.meta with
      | path =>
        simp [hmeta, ihr, List.filter_cons, hm, List.replicate_succ]
      | nameValue =>
        simp [hmeta, ihr, List.filter_cons, hm, List.replicate_succ]
      | list parsed =>
        cases parsed with
        | none =>
          simp [hmeta, ihr, List.filter_cons, hm, List.replicate_succ]
        | some id =>
          have hid : ¬ id = "skip" := by
            intro hs
            rw [isSkipMarker, if_pos hp, hmeta] at ha
            simp [hs] at ha
          simp [hmeta, hid, ihr, List.filter_cons, hm, List.replicate_succ]
    · have hm : matchesTag tag a = false := by simp [matchesTag, hp]
      rw [is_generic_skipped_loop, if_neg hp, ihr]
      simp [List.filter_cons, hm]

/-- Full characterization of the derive loop: it aborts exactly when some
parameter is a const parameter (with the resolver's abort message), and
otherwise returns the per-parameter entries, bounds, and diagnostics,
concatenated in declaration order. -/
theorem derive_params_eq (dt : DeriveType) (gens : List GenericParam) :
    derive_params dt gens =
      if gens.any GenericParam.isConst then
        .error "const generics cannot be skipped"
      else
        .ok (gens.map (param_impl_entry dt), (gens.map (param_bounds dt)).flatten,
          (gens.map (param_diags dt)).flatten) := by
  induction gens with
  | nil => rfl
  | cons g rest ih =>
    cases g with
    | const const_param =>
      simp [derive_params, is_generic_skipped, GenericParam.isConst]
    | lifetime lifetime_param =>
      rw [derive_params, ih]
      by_cases h : rest.any GenericParam.isConst
      · simp [h, is_generic_skipped, GenericParam.isConst]
      · simp [h, is_generic_skipped, GenericParam.isConst, param_impl_entry, param_bounds,
          param_diags, pure_skip]
    | type type_param =>
      rw [derive_params, ih]
      by_cases h : rest.any GenericParam.isConst
      · simp [h, is_generic_skipped, GenericParam.isConst]
      · simp [h, is_generic_skipped, GenericParam.isConst, param_impl_entry, param_bounds,
          param_diags, pure_skip]

/-- The code's target-type rewriting of one generic argument agrees with the
spec-side description of the rewriting rule. -/
theorem target_arg_eq (dt : DeriveType) (g : GenericParam) :
    get_target_type_param dt g = spec_target_arg dt g := by
  cases g <;> rfl

/-- The code's Clone-bound generic arguments agree with the spec-side
description (substitute lifetime for every lifetime parameter, identifiers
elsewhere). -/
theorem clone_args_eq (gens : List GenericParam) :
    gens.map clone_bound_arg = spec_clone_args gens := by
  unfold spec_clone_args
  exact List.map_congr_left fun g _ => by cases g <;> rfl

/-- The code's struct field loop agrees with the spec-side description of the
per-field assignments, at every starting index. -/
theorem gen_fields_struct_eq (dt : DeriveType) (i : Nat) (l : List Field) :
    gen_fields_from dt false i l = spec_struct_inits_from dt i l := by
  induction l generalizing i with
  | nil => rfl
  | cons f rest ih =>
    cases dt <;> cases hf : f.ident <;>
      simp [gen_fields_from, spec_struct_inits_from, gen_field_access, spec_access, spec_call,
        hf, ih]

/-- The code's enum field loop agrees with the spec-side description of the
per-field reconstruction expressions, at every starting index. -/
theorem gen_fields_enum_eq (dt : DeriveType) (i : Nat) (l : List Field) :
    gen_fields_from dt true i l = spec_enum_inits_from dt i l := by
  induction l generalizing i with
  | nil => rfl
  | cons f rest ih =>
    cases dt <;> cases hf : f.ident <;>
      simp [gen_fields_from, spec_enum_inits_from, gen_field_access, spec_enum_binding,
        spec_call, hf, ih]

/-- The spec-side struct assignments preserve the original field names. -/
theorem spec_struct_inits_from_names (dt : DeriveType) (i : Nat) (l : List Field) :
    (spec_struct_inits_from dt i l).map FieldInit.name = l.map Field.ident := by
  induction l generalizing i with
  | nil => rfl
  | cons f rest ih => simp [spec_struct_inits_from, ih]

/-- The spec-side struct assignments have one entry per field. -/
theorem spec_struct_inits_from_length (dt : DeriveType) (i : Nat) (l : List Field) :
    (spec_struct_inits_from dt i l).length = l.length := by
  induction l generalizing i with
  | nil => rfl
  | cons f rest ih => simp [spec_struct_inits_from, ih]

/-- The spec-side enum reconstruction expressions preserve field names. -/
theorem spec_enum_inits_from_names (dt : DeriveType) (i : Nat) (l : List Field) :
    (spec_enum_inits_from dt i l).map FieldInit.name = l.map Field.ident := by
  induction l generalizing i with
  | nil => rfl
  | cons f rest ih => simp [spec_enum_inits_from, ih]

/-- The spec-side enum reconstruction expressions have one entry per field. -/
theorem spec_enum_inits_from_length (dt : DeriveType) (i : Nat) (l : List Field) :
    (spec_enum_inits_from dt i l).length = l.length := by
  induction l generalizing i with
  | nil => rfl
  | cons f rest ih => simp [spec_enum_inits_from, ih]

/-- The positional fresh names cover every field. -/
theorem tuple_fields_from_length (i : Nat) (l : List Field) :
    (tuple_fields_from i l).length = l.length := by
  induction l generalizing i with
  | nil => rfl
  | cons f rest ih => simp [tuple_fields_from, ih]

/-- An arm's pattern binds exactly one name per field of the variant. -/
theorem arm_pat_length (fs : Fields) :
    (arm_pat_bindings fs).length = (fieldsList fs).length := by
  cases fs <;> simp [arm_pat_bindings, fieldsList, tuple_fields_from_length]

/-- No per-parameter bound is the universally quantified Clone constraint. -/
theorem param_bounds_no_clone (dt : DeriveType) (g : GenericParam) :
    (param_bounds dt g).all (fun b => !b.isCloneBound) = true := by
  have h : ∀ b : Bool, ((derive_param_entry dt b g).2).all (fun x => !x.isCloneBound) = true := by
    intro b
    cases g <;> cases dt <;> cases b <;> simp [derive_param_entry, Bound.isCloneBound]
  exact h (pure_skip dt g)

/-- A predicate true of every member list is true of the flattening. -/
theorem all_flatten_of_all {α : Type} (p : α → Bool) (ls : List (List α))
    (h : ∀ l ∈ ls, l.all p = true) : ls.flatten.all p = true := by
  induction ls with
  | nil => rfl
  | cons l rest ih =>
    rw [List.flatten_cons, List.all_append,
      h l (List.mem_cons_self l rest),
      ih (fun x hx => h x (List.mem_cons_of_mem l hx))]
    rfl

/-! ## Claim theorems -/

/-- C1: the claim states that for every type declaration containing a const
generic parameter, code generation succeeds for both transformation kinds and
passes every const parameter through unchanged. The code refutes it: on the
declaration `struct Foo<const N: usize>(u32)` the derive entry point aborts
for both kinds, because the attribute resolver unconditionally aborts on every
const parameter (even one carrying no marker); moreover the target type
synthesizer emits the full const-parameter declaration tokens, not the bare
parameter name, as the generic argument. -/
theorem c1_const_param_aborts :
    derive constFoo .shallowClone = .error "const generics cannot be skipped" ∧
    derive constFoo .makeOwned = .error "const generics cannot be skipped" ∧
    (get_target_type constFoo .shallowClone).args = [.constDecl "N" "usize"] ∧
    (get_target_type constFoo .makeOwned).args = [.constDecl "N" "usize"] :=
  ⟨rfl, rfl, rfl, rfl⟩

/-- C2: for the struct `Pair(u16, u32, Text)` with no generic parameters, the
generated ShallowView body transforms each positional field by reference and
the OwnershipDetach body by value; semantically, the shallow view of any
`Pair` keeps both scalar field values identical, turns the text field into a
borrowed view of the original text, is content-equal to the original, and
detaching the shallow view reconstructs a value equal by content to the
original `Pair`. -/
theorem c2_pair_roundtrip (p : Pair) :
    gen_impl .shallowClone pairDecl =
      .ok (.structBody "Pair" .unnamed
        [⟨none, .shallowCloneCall (.refIndex 0)⟩,
         ⟨none, .shallowCloneCall (.refIndex 1)⟩,
         ⟨none, .shallowCloneCall (.refIndex 2)⟩]) ∧
    gen_impl .makeOwned pairDecl =
      .ok (.structBody "Pair" .unnamed
        [⟨none, .makeOwnedCall (.valIndex 0)⟩,
         ⟨none, .makeOwnedCall (.valIndex 1)⟩,
         ⟨none, .makeOwnedCall (.valIndex 2)⟩]) ∧
    (Pair.shallow_clone p).f0 = p.f0 ∧
    (Pair.shallow_clone p).f1 = p.f1 ∧
    (Pair.shallow_clone p).f2 = Cow.borrowed p.f2.deref ∧
    (Pair.shallow_clone p).f2.isBorrowed = true ∧
    Pair.content_eq (Pair.shallow_clone p) p ∧
    Pair.content_eq (Pair.make_owned (Pair.shallow_clone p)) p :=
  ⟨rfl, rfl, rfl, rfl, rfl, rfl, ⟨rfl, rfl, rfl⟩, ⟨rfl, rfl, rfl⟩⟩

/-- C3: under OwnershipDetach the assembler adds, for an excluded type
parameter, exactly the single `'static` constraint, and for a non-excluded
type parameter exactly the MakeOwned constraint together with the constraint
that its owned projection satisfy the parameter's original declared bounds —
and nothing else per type parameter in this mode. -/
theorem c3_makeowned_type_param_bounds (type_param : TypeParam) :
    (∀ skip : Bool,
      derive_param_entry .makeOwned skip (.type type_param) =
        (.typeDecl type_param.ident type_param.bounds, spec_mo_type_bounds skip type_param)) ∧
    derive_params .makeOwned [.type type_param] =
      .ok ([.typeDecl type_param.ident type_param.bounds],
        spec_mo_type_bounds (pure_skip .makeOwned (.type type_param)) type_param,
        param_diags .makeOwned (.type type_param)) := by
  constructor
  · intro skip
    cases skip <;> simp [derive_param_entry, spec_mo_type_bounds]
  · rcases hsk : is_generic_skipped_loop (rootTag .makeOwned) type_param.attrs with ⟨skip, ds⟩
    cases skip <;>
      simp [derive_params, is_generic_skipped, hsk, derive_param_entry, spec_mo_type_bounds,
        pure_skip, param_diags]

/-- C4 counterexample: a parameter whose marker list is a recognized skip
marker followed by a malformed marker with argument `foo`. The claim requires
the resolver to emit exactly one diagnostic for the malformed marker and to
treat the parameter as not excluded; the code emits no diagnostic at all and
reports the parameter as excluded, because it returns at the first skip
marker without examining the remaining markers. -/
theorem c4_skip_shadows_malformed :
    is_generic_skipped .shallowClone (.type skipThenMalformed) = .ok (true, []) := rfl

/-- C4 amended: provided none of a parameter's matching markers is the
recognized skip form, the resolver reports exactly one "Unknown attribute"
diagnostic per matching (necessarily malformed) marker, in marker order, and
treats the parameter as not excluded — for type and lifetime parameters alike;
and across a const-free parameter list the derive loop keeps resolving every
remaining parameter, concatenating all parameters' diagnostics. -/
theorem c4_no_skip_reports_each (dt : DeriveType) (type_param : TypeParam)
    (lifetime_param : LifetimeParam) (gens : List GenericParam)
    (h1 : ∀ a ∈ type_param.attrs, isSkipMarker (rootTag dt) a = false)
    (h2 : ∀ a ∈ lifetime_param.attrs, isSkipMarker (rootTag dt) a = false)
    (h3 : gens.any GenericParam.isConst = false) :
    is_generic_skipped dt (.type type_param) =
      .ok (false,
        List.replicate (type_param.attrs.filter (matchesTag (rootTag dt))).length
          "Unknown attribute") ∧
    is_generic_skipped dt (.lifetime lifetime_param) =
      .ok (false,
        List.replicate (lifetime_param.attrs.filter (matchesTag (rootTag dt))).length
          "Unknown attribute") ∧
    derive_params dt gens =
      .ok (gens.map (param_impl_entry dt), (gens.map (param_bounds dt)).flatten,
        (gens.map (param_diags dt)).flatten) := by
  refine ⟨?_, ?_, ?_⟩
  · simp [is_generic_skipped, no_skip_loop _ _ h1]
  · simp [is_generic_skipped, no_skip_loop _ _ h2]
  · rw [derive_params_eq]
    simp [h3]

/-- C4 amended witness: a type parameter with one malformed marker (argument
`foo`) and a lifetime parameter with one matching marker lacking a parseable
argument each yield exactly one diagnostic and non-exclusion, and the derive
loop over both parameters succeeds with their diagnostics concatenated. -/
theorem c4_no_skip_reports_each_witness :
    (∀ a ∈ malformedTypeParam.attrs, isSkipMarker (rootTag .makeOwned) a = false) ∧
    (∀ a ∈ malformedLifetimeParam.attrs, isSkipMarker (rootTag .makeOwned) a = false) ∧
    malformedGens.any GenericParam.isConst = false ∧
    is_generic_skipped .makeOwned (.type malformedTypeParam) =
      .ok (false, ["Unknown attribute"]) ∧
    is_generic_skipped .makeOwned (.lifetime malformedLifetimeParam) =
      .ok (false, ["Unknown attribute"]) ∧
    derive_params .makeOwned malformedGens =
      .ok (malformedGens.map (param_impl_entry .makeOwned),
        (malformedGens.map (param_bounds .makeOwned)).flatten,
        (malformedGens.map (param_diags .makeOwned)).flatten) := by
  have h := c4_no_skip_reports_each .makeOwned malformedTypeParam malformedLifetimeParam
    malformedGens (by decide) (by decide) (by decide)
  exact ⟨by decide, by decide, by decide, h.1, h.2.1, h.2.2⟩

/-- C5: the synthesized target type is `Name<G1, ..., Gn>` where every
excluded lifetime or type parameter passes through unchanged, a non-excluded
lifetime parameter becomes the distinguished shallowclone lifetime under
ShallowView and the static lifetime under OwnershipDetach, and a non-excluded
type parameter becomes its ShallowClone target projection under ShallowView
and its MakeOwned owned projection under OwnershipDetach. -/
theorem c5_target_type_synthesis (input : DeriveInput) (dt : DeriveType) :
    get_target_type input dt = ⟨input.ident, input.generics.map (spec_target_arg dt)⟩ := by
  unfold get_target_type
  exact congrArg (TargetType.mk input.ident)
    (List.map_congr_left fun g _ => target_arg_eq dt g)

/-- C6: for every enum declaration with V variants, the generated body (for
either kind) is a match with exactly V reconstruction arms in declaration
order and no wildcard arm (the arm list is exactly the variant list's image),
each arm binding every field of its variant and reconstructing the
corresponding target variant with the same field names and positions. -/
theorem c6_enum_arms (dt : DeriveType) (name : String) (gens : List GenericParam)
    (vs : List Variant) :
    gen_impl dt ⟨name, gens, .enum vs⟩ = .ok (.matchBody (vs.map (spec_enum_arm dt))) ∧
    (vs.map (spec_enum_arm dt)).length = vs.length ∧
    (vs.map (spec_enum_arm dt)).map Arm.variant = vs.map Variant.ident ∧
    (vs.map (spec_enum_arm dt)).map (fun a => a.pat.length) =
      vs.map (fun v => (fieldsList v.fields).length) ∧
    (vs.map (spec_enum_arm dt)).map (fun a => a.body.map FieldInit.name) =
      vs.map (fun v => (fieldsList v.fields).map Field.ident) ∧
    (vs.map (spec_enum_arm dt)).map (fun a => a.body.length) =
      vs.map (fun v => (fieldsList v.fields).length) := by
  refine ⟨?_, by simp, ?_, ?_, ?_, ?_⟩
  · have hmap :
        vs.map (fun variant =>
          (⟨variant.ident, fieldsShape variant.fields, arm_pat_bindings variant.fields,
            gen_fields dt (fieldsList variant.fields) true⟩ : Arm)) =
          vs.map (spec_enum_arm dt) :=
      List.map_congr_left fun v _ => by
        simp [spec_enum_arm, gen_fields, gen_fields_enum_eq, Arm.mk.injEq]
    simp only [gen_impl, hmap]
  · rw [List.map_map]
    exact List.map_congr_left fun v _ => rfl
  · rw [List.map_map]
    exact List.map_congr_left fun v _ => by
      simp [spec_enum_arm, arm_pat_length]
  · rw [List.map_map]
    exact List.map_congr_left fun v _ => by
      simp [spec_enum_arm, spec_enum_inits_from_names]
  · rw [List.map_map]
    exact List.map_congr_left fun v _ => by
      simp [spec_enum_arm, spec_enum_inits_from_length]

/-- C7: for every struct declaration, the generated body produces exactly one
field assignment per field, preserving field names (positions for positional
shapes), each applying the transformation recursively to an access of the
corresponding original field — by reference for ShallowView, by value for
OwnershipDetach. -/
theorem c7_struct_fields (dt : DeriveType) (name : String) (gens : List GenericParam)
    (fs : Fields) :
    gen_impl dt ⟨name, gens, .struct fs⟩ =
      .ok (.structBody name (fieldsShape fs) (spec_struct_inits_from dt 0 (fieldsList fs))) ∧
    (spec_struct_inits_from dt 0 (fieldsList fs)).length = (fieldsList fs).length ∧
    (spec_struct_inits_from dt 0 (fieldsList fs)).map FieldInit.name =
      (fieldsList fs).map Field.ident := by
  refine ⟨?_, spec_struct_inits_from_length dt 0 _, spec_struct_inits_from_names dt 0 _⟩
  simp [gen_impl, gen_fields, gen_fields_struct_eq]

/-- C8: under OwnershipDetach, after all per-parameter constraints, exactly
one additional constraint is appended per declaration — determined by the
declaration's name and generic parameters alone, hence independent of field
and variant count — requiring the whole original type, with every lifetime
parameter replaced by a universally quantified substitute lifetime, to
implement Clone; no per-parameter bound is that constraint, and under
ShallowView no such constraint appears at all. -/
theorem c8_clone_bound (input : DeriveInput)
    (h1 : input.generics.any GenericParam.isConst = false)
    (h2 : input.data.isUnion = false) :
    (∃ out, derive input .makeOwned = .ok out ∧
      out.extra_bounds =
        (input.generics.map (param_bounds .makeOwned)).flatten ++
          [Bound.forAllLifetimesClone input.ident (spec_clone_args input.generics)] ∧
      ((input.generics.map (param_bounds .makeOwned)).flatten).all
        (fun b => !b.isCloneBound) = true) ∧
    (∃ out2, derive input .shallowClone = .ok out2 ∧
      out2.extra_bounds =
        (input.generics.map (param_bounds .shallowClone)).flatten ∧
      out2.extra_bounds.all (fun b => !b.isCloneBound) = true) := by
  have hmo := derive_params_eq .makeOwned input.generics
  have hsc := derive_params_eq .shallowClone input.generics
  rw [h1, if_neg (by simp)] at hmo hsc
  have hallmo :
      ((input.generics.map (param_bounds .makeOwned)).flatten).all
        (fun b => !b.isCloneBound) = true :=
    all_flatten_of_all _ _ (fun l hl => by
      obtain ⟨g, _, rfl⟩ := List.mem_map.mp hl
      exact param_bounds_no_clone .makeOwned g)
  have hallsc :
      ((input.generics.map (param_bounds .shallowClone)).flatten).all
        (fun b => !b.isCloneBound) = true :=
    all_flatten_of_all _ _ (fun l hl => by
      obtain ⟨g, _, rfl⟩ := List.mem_map.mp hl
      exact param_bounds_no_clone .shallowClone g)
  constructor
  · cases hdata : input.data with
    | union => simp [hdata, Data.isUnion] at h2
    | struct fs =>
      refine ⟨⟨input.generics.map (param_impl_entry .makeOwned),
        (input.generics.map (param_bounds .makeOwned)).flatten ++
          [.forAllLifetimesClone input.ident (spec_clone_args input.generics)],
        get_target_type input .makeOwned,
        .structBody input.ident (fieldsShape fs) (gen_fields .makeOwned (fieldsList fs) false),
        (input.generics.map (param_diags .makeOwned)).flatten⟩, ?_, rfl, hallmo⟩
      simp only [derive, hmo, gen_impl, hdata, clone_args_eq]
    | enum variants =>
      refine ⟨⟨input.generics.map (param_impl_entry .makeOwned),
        (input.generics.map (param_bounds .makeOwned)).flatten ++
          [.forAllLifetimesClone input.ident (spec_clone_args input.generics)],
        get_target_type input .makeOwned,
        .matchBody (variants.map (fun variant =>
          ⟨variant.ident, fieldsShape variant.fields, arm_pat_bindings variant.fields,
            gen_fields .makeOwned (fieldsList variant.fields) true⟩)),
        (input.generics.map (param_diags .makeOwned)).flatten⟩, ?_, rfl, hallmo⟩
      simp only [derive, hmo, gen_impl, hdata, clone_args_eq]
  · cases hdata : input.data with
    | union => simp [hdata, Data.isUnion] at h2
    | struct fs =>
      refine ⟨⟨input.generics.map (param_impl_entry .shallowClone),
        (input.generics.map (param_bounds .shallowClone)).flatten,
        get_target_type input .shallowClone,
        .structBody input.ident (fieldsShape fs) (gen_fields .shallowClone (fieldsList fs) false),
        (input.generics.map (param_diags .shallowClone)).flatten⟩, ?_, rfl, hallsc⟩
      simp only [derive, hsc, gen_impl, hdata]
    | enum variants =>
      refine ⟨⟨input.generics.map (param_impl_entry .shallowClone),
        (input.generics.map (param_bounds .shallowClone)).flatten,
        get_target_type input .shallowClone,
        .matchBody (variants.map (fun variant =>
          ⟨variant.ident, fieldsShape variant.fields, arm_pat_bindings variant.fields,
            gen_fields .shallowClone (fieldsList variant.fields) true⟩)),
        (input.generics.map (param_diags .shallowClone)).flatten⟩, ?_, rfl, hallsc⟩
      simp only [derive, hsc, gen_impl, hdata]

/-- C8 witness: the clone-bound theorem instantiated at a concrete const-free
enum declaration with one lifetime and one type parameter. -/
theorem c8_clone_bound_witness :
    enumDecl.generics.any GenericParam.isConst = false ∧
    enumDecl.data.isUnion = false ∧
    ((∃ out, derive enumDecl .makeOwned = .ok out ∧
      out.extra_bounds =
        (enumDecl.generics.map (param_bounds .makeOwned)).flatten ++
          [Bound.forAllLifetimesClone enumDecl.ident (spec_clone_args enumDecl.generics)] ∧
      ((enumDecl.generics.map (param_bounds .makeOwned)).flatten).all
        (fun b => !b.isCloneBound) = true) ∧
    (∃ out2, derive enumDecl .shallowClone = .ok out2 ∧
      out2.extra_bounds =
        (enumDecl.generics.map (param_bounds .shallowClone)).flatten ∧
      out2.extra_bounds.all (fun b => !b.isCloneBound) = true)) :=
  ⟨by decide, by decide, c8_clone_bound enumDecl (by decide) (by decide)⟩

/-- C9: for both borrow-or-own containers, shallow cloning an Owned container
yields a Borrowed container holding the original payload, and shallow cloning
an already-Borrowed container yields a Borrowed container holding the same
referent, with no added level of indirection. -/
theorem c9_cocow_shallow {α : Type} (v : α) (l : List α) :
    CoCow.shallow_clone (CoCow.owned v) = CoCow.borrowed v ∧
    CoCow.shallow_clone (CoCow.borrowed v) = CoCow.borrowed v ∧
    CoCowSlice.shallow_clone (CoCowSlice.owned l) = CoCowSlice.borrowed l ∧
    CoCowSlice.shallow_clone (CoCowSlice.borrowed l) = CoCowSlice.borrowed l :=
  ⟨rfl, rfl, rfl, rfl⟩

/-- C10: for every standard Cow value, of either variant, shallow cloning
returns the Borrowed variant holding the dereferenced underlying data — never
an Owned variant — and the underlying data is passed through unchanged. -/
theorem c10_cow_shallow {α : Type} (v : α) (c : Cow α) :
    Cow.shallow_clone (Cow.owned v) = Cow.borrowed v ∧
    Cow.shallow_clone (Cow.borrowed v) = Cow.borrowed v ∧
    Cow.shallow_clone c = Cow.borrowed c.deref ∧
    (Cow.shallow_clone c).isOwned = false ∧
    (Cow.shallow_clone c).deref = c.deref :=
  ⟨rfl, rfl, rfl, rfl, rfl⟩

end Shallowclone
